import Mathlib

/-!
Verification development for the Cascata multi-tenant BaaS gateway.

The TypeScript source is shallowly embedded in Lean: pure request-handling
logic (query translation, middleware decisions, pool-registry bookkeeping,
worker control flow, the notification rule engine) becomes executable Lean
functions; external effects (database queries, HTTP posts, JWT verification)
become explicit inputs that carry the result the effect would have produced.
JavaScript strings are Lean `String`s; JavaScript numbers appearing here are
integers (`parseInt` results), modelled as `Int`/`Nat`.
-/

namespace JsPrim

/-- JavaScript `String.prototype.includes`: `needle` occurs contiguously in
`hay` (empty needle always matches). -/
def listHasInfix (needle : List Char) : List Char → Bool
  | [] => needle.isEmpty
  | c :: t => needle.isPrefixOf (c :: t) || listHasInfix needle t

/-- `hay.includes(sub)` for JS strings. -/
def jsIncludes (hay sub : String) : Bool :=
  listHasInfix sub.data hay.data

/-- JS string truthiness: a string is falsy exactly when it is empty. -/
def jsTruthy (s : Option String) : Bool :=
  match s with
  | none => false
  | some v => v ≠ ""

def digitVal (c : Char) : Nat := c.toNat - '0'.toNat

def digitsToNat (cs : List Char) : Nat :=
  cs.foldl (fun acc c => acc * 10 + digitVal c) 0

def isHexDigit (c : Char) : Bool :=
  c.isDigit || ('a' ≤ c && c ≤ 'f') || ('A' ≤ c && c ≤ 'F')

def hexVal (c : Char) : Nat :=
  if c.isDigit then digitVal c
  else if 'a' ≤ c && c ≤ 'f' then c.toNat - 'a'.toNat + 10
  else c.toNat - 'A'.toNat + 10

def hexToNat (cs : List Char) : Nat :=
  cs.foldl (fun acc c => acc * 16 + hexVal c) 0

/-- JavaScript `parseInt(s)` (radix unspecified): skip leading whitespace,
optional sign, `0x`/`0X` switches to hexadecimal, parse the maximal digit
prefix, `none` (NaN) when no digit is consumed. -/
def parseIntJS (s : String) : Option Int :=
  let cs := s.data.dropWhile (fun c => c = ' ' || c = '\t' || c = '\n' || c = '\r')
  let (sign, cs) : Int × List Char :=
    match cs with
    | '-' :: t => (-1, t)
    | '+' :: t => (1, t)
    | _ => (1, cs)
  match cs with
  | '0' :: x :: t =>
    if x = 'x' || x = 'X' then
      let ds := t.takeWhile isHexDigit
      if ds.isEmpty then none else some (sign * hexToNat ds)
    else
      let ds := (('0' :: x :: t).takeWhile Char.isDigit)
      some (sign * digitsToNat ds)
  | _ =>
    let ds := cs.takeWhile Char.isDigit
    if ds.isEmpty then none else some (sign * digitsToNat ds)

/-- Template-literal rendering of a `parseInt` result: a number prints via
`toString`, NaN prints as `"NaN"`. -/
def parseIntDisplay (s : String) : String :=
  match parseIntJS s with
  | some n => toString n
  | none => "NaN"

/-- Fuel-based splitter on a non-empty separator (fuel = input length keeps
the recursion structural, hence kernel-reducible). -/
def splitFuel (sep : List Char) : Nat → List Char → List (List Char)
  | _, [] => [[]]
  | 0, l => [l]
  | fuel + 1, c :: t =>
    if sep.isPrefixOf (c :: t) then
      [] :: splitFuel sep fuel ((c :: t).drop sep.length)
    else
      match splitFuel sep fuel t with
      | [] => [[c]]
      | h :: rest => (c :: h) :: rest

/-- `s.split(sep)` for a JS string and a non-empty literal separator. -/
def jsSplitOn (s sep : String) : List String :=
  if sep = "" then [s]
  else (splitFuel sep.data s.data.length s.data).map String.mk

/-- `s.replace(/pat/g, rep)` for a literal pattern: replace every
occurrence. -/
def jsReplaceAll (s pat rep : String) : String :=
  if pat = "" then s
  else String.intercalate rep (jsSplitOn s pat)

/-- `s.replace(pat, rep)` with a string pattern: first occurrence only. -/
def jsReplaceFirst (s pat rep : String) : String :=
  match jsSplitOn s pat with
  | [] => s
  | [_] => s
  | a :: rest => a ++ rep ++ String.intercalate pat rest

def wsChar (c : Char) : Bool :=
  c = ' ' || c = '\t' || c = '\n' || c = '\r'

/-- `s.trim()` (ASCII whitespace). -/
def jsTrim (s : String) : String :=
  String.mk (((s.data.dropWhile wsChar).reverse.dropWhile wsChar).reverse)

def jsStartsWith (s p : String) : Bool := p.data.isPrefixOf s.data

def jsEndsWith (s p : String) : Bool := p.data.isSuffixOf s.data

def charToLower (c : Char) : Char :=
  if 'A' ≤ c && c ≤ 'Z' then Char.ofNat (c.toNat + 32) else c

def jsToLower (s : String) : String := String.mk (s.data.map charToLower)

/-- UTF-8 encoding of one code point. -/
def utf8Bytes (c : Char) : List Nat :=
  let n := c.toNat
  if n < 0x80 then [n]
  else if n < 0x800 then [0xC0 + n / 64, 0x80 + n % 64]
  else if n < 0x10000 then [0xE0 + n / 4096, 0x80 + n / 64 % 64, 0x80 + n % 64]
  else [0xF0 + n / 262144, 0x80 + n / 4096 % 64, 0x80 + n / 64 % 64, 0x80 + n % 64]

/-- The UTF-8 bytes of a string (`Buffer.from(s)`). -/
def stringBytes (s : String) : List Nat := s.data.flatMap utf8Bytes

end JsPrim

open JsPrim

namespace PostgrestService

/-- A SQL parameter value as pushed onto the `values` array: a string coming
from the URL, a flattened-in list bound as a single array parameter
(PATCH/DELETE `in` filters), or a JSON scalar from a request body (body
scalars are modelled as string-or-null). -/
inductive SqlValue where
  | s (x : String)
  | arr (xs : List String)
  | null
  deriving Repr, DecidableEq

/-- A JSON object of a request body; values are modelled as string-or-null
scalars. -/
abbrev Row := List (String × SqlValue)

/-- Request body: a single JSON object or a JSON array of objects
(`Array.isArray` distinguishes the two in the source). -/
inductive ReqBody where
  | obj (r : Row)
  | arr (rs : List Row)
  deriving Repr, DecidableEq

/-- The headers `buildQuery` consults. -/
structure Headers where
  range : Option String := none
  prefer : Option String := none
  accept : Option String := none
  deriving Repr, DecidableEq

structure PostgrestQuery where
  text : String
  values : List SqlValue
  countQuery : String
  deriving Repr, DecidableEq

/-- The value produced by `parseFilter`: absent (`is` filters and empty `in`
lists bind nothing), a single scalar, or the element list of an `in` filter. -/
inductive FilterVal where
  | nothing
  | single (v : String)
  | list (vs : List String)
  deriving Repr, DecidableEq

/-- `key.replace(/"/g, '')` then wrap in double quotes. -/
def filterColumn (key : String) : String :=
  "\"" ++ jsReplaceAll key "\"" "" ++ "\""

/-- `v.trim().replace(/^"|"$/g, '')`: strip one leading and one trailing
double quote after trimming. -/
def stripEdgeQuotes (v : String) : String :=
  let t := jsTrim v
  let t := if jsStartsWith t "\"" then t.drop 1 else t
  if jsEndsWith t "\"" then t.dropRight 1 else t

/-- `PostgrestService.parseFilter(key, value, paramIndex)`. Returns the SQL
clause (empty string when the filter is dropped) and the value(s) to bind. -/
def parseFilter (key value : String) (paramIndex : Nat) : String × FilterVal :=
  let parts := jsSplitOn value "."
  let column := filterColumn key
  if parts.length < 2 then
    (column ++ " = $" ++ toString paramIndex, .single value)
  else
    let op := parts.headD ""
    let rawVal := String.intercalate "." (parts.drop 1)
    match op with
    | "eq" => (column ++ " = $" ++ toString paramIndex, .single rawVal)
    | "neq" => (column ++ " != $" ++ toString paramIndex, .single rawVal)
    | "gt" => (column ++ " > $" ++ toString paramIndex, .single rawVal)
    | "gte" => (column ++ " >= $" ++ toString paramIndex, .single rawVal)
    | "lt" => (column ++ " < $" ++ toString paramIndex, .single rawVal)
    | "lte" => (column ++ " <= $" ++ toString paramIndex, .single rawVal)
    | "like" => (column ++ " LIKE $" ++ toString paramIndex, .single (jsReplaceAll rawVal "*" "%"))
    | "ilike" => (column ++ " ILIKE $" ++ toString paramIndex, .single (jsReplaceAll rawVal "*" "%"))
    | "is" =>
      if rawVal = "null" then (column ++ " IS NULL", .nothing)
      else if rawVal = "true" then (column ++ " IS TRUE", .nothing)
      else if rawVal = "false" then (column ++ " IS FALSE", .nothing)
      else ("", .nothing)
    | "in" =>
      let cleanVal :=
        if jsStartsWith rawVal "(" && jsEndsWith rawVal ")" then (rawVal.drop 1).dropRight 1
        else rawVal
      if jsTrim cleanVal = "" then ("1 = 0", .nothing)
      else
        let xs := (jsSplitOn cleanVal ",").map stripEdgeQuotes
        (column ++ " = ANY($" ++ toString paramIndex ++ ")", .list xs)
    | "cs" => (column ++ " @> $" ++ toString paramIndex, .single rawVal)
    | "cd" => (column ++ " <@ $" ++ toString paramIndex, .single rawVal)
    | _ => (column ++ " = $" ++ toString paramIndex, .single value)

/-- The top-of-`buildQuery` filter loop (runs for every method): each
non-reserved query key contributes a clause; an `in`-filter's element list is
FLATTENED onto `params` (`val.forEach(v => params.push(v))`) although its
clause holds a single placeholder. -/
def buildFiltersGet (reserved : List String) :
    List (String × String) → List SqlValue → List String × List SqlValue
  | [], params => ([], params)
  | (key, value) :: rest, params =>
    if reserved.contains key then buildFiltersGet reserved rest params
    else
      let (clause, val) := parseFilter key value (params.length + 1)
      if clause = "" then buildFiltersGet reserved rest params
      else
        let params' :=
          match val with
          | .nothing => params
          | .single v => params ++ [SqlValue.s v]
          | .list vs => params ++ vs.map SqlValue.s
        let (cs, ps) := buildFiltersGet reserved rest params'
        (clause :: cs, ps)

/-- The PATCH/DELETE filter re-parse loop: same clause construction, but an
`in`-filter's list is pushed as ONE array value (`params.push(val)`); the
reserved list here omits `on_conflict` and `columns`. -/
def buildFiltersMut (reserved : List String) :
    List (String × String) → List SqlValue → List String × List SqlValue
  | [], params => ([], params)
  | (key, value) :: rest, params =>
    if reserved.contains key then buildFiltersMut reserved rest params
    else
      let (clause, val) := parseFilter key value (params.length + 1)
      if clause = "" then buildFiltersMut reserved rest params
      else
        let params' :=
          match val with
          | .nothing => params
          | .single v => params ++ [SqlValue.s v]
          | .list vs => params ++ [SqlValue.arr vs]
        let (cs, ps) := buildFiltersMut reserved rest params'
        (clause :: cs, ps)

/-- `"${tableName.replace(/"/g, '""')}"` -/
def safeTable (tableName : String) : String :=
  "\"" ++ jsReplaceAll tableName "\"" "\"\"" ++ "\""

/-- Identifier quoting by doubling inner double quotes (INSERT column names,
`on_conflict` target, PATCH set keys). -/
def quoteDoubling (k : String) : String :=
  "\"" ++ jsReplaceAll k "\"" "\"\"" ++ "\""

/-- `PostgrestService.parseSelect`: aliases are quoted WITHOUT doubling inner
quotes; parts containing `(`, `->` or `.` pass through unquoted. -/
def parseSelect (selectParam : String) : String :=
  if selectParam = "" || selectParam = "*" || selectParam = "%2A" then "*"
  else
    String.intercalate ", " ((jsSplitOn selectParam ",").map fun c =>
      let part := jsTrim c
      if jsIncludes part ":" && !jsIncludes part "::" then
        let pieces := jsSplitOn part ":"
        let col := pieces.headD ""
        let aliasName := (pieces.drop 1).headD ""
        "\"" ++ jsTrim col ++ "\" AS \"" ++ jsTrim aliasName ++ "\""
      else if jsIncludes part "(" || jsIncludes part "->" || jsIncludes part "." then
        part
      else
        "\"" ++ part ++ "\"")

/-- `col.replace(/[^a-zA-Z0-9_> -]/g, '')`. -/
def cleanOrderCol (col : String) : String :=
  String.mk (col.data.filter fun c =>
    c.isAlpha || c.isDigit || c = '_' || c = '>' || c = ' ' || c = '-')

/-- `PostgrestService.parseOrder`. -/
def parseOrder (orderParam : Option String) : String :=
  match orderParam with
  | none => ""
  | some o =>
    if o = "" then ""
    else
      "ORDER BY " ++ String.intercalate ", " ((jsSplitOn o ",").map fun p =>
        let pieces := jsSplitOn p "."
        let col := pieces.headD ""
        let dir := (pieces.drop 1).headD ""
        let safeCol := "\"" ++ cleanOrderCol col ++ "\""
        let safeDir := if jsToLower dir = "desc" then "DESC" else "ASC"
        let nulls :=
          if jsIncludes p "nullslast" then " NULLS LAST"
          else if jsIncludes p "nullsfirst" then " NULLS FIRST"
          else ""
        safeCol ++ " " ++ safeDir ++ nulls)

/-- The regex `/(\d+)-(\d+)?/` applied to a Range header: leftmost maximal
digit run followed by `-`, with an optional second digit run. -/
def findRange : List Char → Option (Nat × Option Nat)
  | [] => none
  | c :: t =>
    if c.isDigit then
      let run := (c :: t).takeWhile Char.isDigit
      let rest := (c :: t).drop run.length
      match rest with
      | '-' :: r2 =>
        let run2 := r2.takeWhile Char.isDigit
        some (digitsToNat run, if run2.isEmpty then none else some (digitsToNat run2))
      | _ => findRange t
    else findRange t

/-- The GET pagination block of `buildQuery`: Range header first, then
explicit (truthy) `limit`/`offset` parameters override. Returns
`(limitClause, offsetClause)`. -/
def getPagination (headers : Headers) (limitParam offsetParam : Option String) :
    String × String :=
  let (limitClause, offsetClause) :=
    match headers.range with
    | none => ("", "")
    | some h =>
      match findRange h.data with
      | none => ("", "")
      | some (start, endo) =>
        let offsetClause := "OFFSET " ++ toString start
        match endo with
        | none => ("", offsetClause)
        | some e => ("LIMIT " ++ toString ((e : Int) - (start : Int) + 1), offsetClause)
  let limitClause :=
    if jsTruthy limitParam then "LIMIT " ++ parseIntDisplay (limitParam.getD "")
    else limitClause
  let offsetClause :=
    if jsTruthy offsetParam then "OFFSET " ++ parseIntDisplay (offsetParam.getD "")
    else offsetClause
  (limitClause, offsetClause)

def lookupParam (query : List (String × String)) (k : String) : Option String :=
  (query.find? (fun kv => kv.1 = k)).map (·.2)

/-- `row[k]` for a body row (`undefined` values are bound as SQL null by the
driver; modelled as `.null`). -/
def rowGet (r : Row) (k : String) : SqlValue :=
  ((r.find? (fun kv => kv.1 = k)).map (·.2)).getD .null

/-- Placeholder groups for the INSERT VALUES list: one `$i` per key per row,
numbered from 1 (ignoring any filter values already on `params`). -/
def insertGroups (keys : List String) (rows : List Row) :
    List String × List SqlValue :=
  let n := keys.length
  let groups := rows.enum.map fun (i, _row) =>
    "(" ++ String.intercalate ", "
      ((List.range n).map fun j => "$" ++ toString (i * n + j + 1)) ++ ")"
  let vals := rows.flatMap fun row => keys.map fun k => rowGet row k
  (groups, vals)

/-- `headers['prefer'] && headers['prefer'].includes(tag)` -/
def preferHas (headers : Headers) (tag : String) : Bool :=
  match headers.prefer with
  | none => false
  | some p => jsIncludes p tag

/-- `PostgrestService.buildQuery(tableName, method, query, body, headers)`.
`query` is the ordered key-value map of URL query parameters (values are
strings). Thrown `Error`s become `Except.error`. -/
def buildQuery (tableName method : String) (query : List (String × String))
    (body : ReqBody) (headers : Headers) : Except String PostgrestQuery := do
  let tbl := safeTable tableName
  let selectParam :=
    match lookupParam query "select" with
    | none => "*"
    | some s => if s = "" then "*" else s
  let selectParam := if selectParam = "%2A" then "*" else selectParam
  let orderParam := lookupParam query "order"
  let limitParam := lookupParam query "limit"
  let offsetParam := lookupParam query "offset"
  let onConflictParam := lookupParam query "on_conflict"
  let (filters, params) :=
    buildFiltersGet ["select", "order", "limit", "offset", "on_conflict", "columns"]
      query []
  let whereClause :=
    if filters.length > 0 then "WHERE " ++ String.intercalate " AND " filters else ""
  if method = "GET" then
    let columns := parseSelect selectParam
    let orderBy := parseOrder orderParam
    let (limitClause, offsetClause) := getPagination headers limitParam offsetParam
    let sql := "SELECT " ++ columns ++ " FROM public." ++ tbl ++ " " ++ whereClause
      ++ " " ++ orderBy ++ " " ++ limitClause ++ " " ++ offsetClause
    let countQuery :=
      if preferHas headers "count=exact" then
        "SELECT COUNT(*) as total FROM public." ++ tbl ++ " " ++ whereClause
      else ""
    return { text := sql, values := params, countQuery := countQuery }
  else if method = "POST" then
    let rows := match body with | .obj r => [r] | .arr rs => rs
    match rows with
    | [] => throw "No data to insert"
    | r0 :: _ =>
      let keys := r0.map (·.1)
      let cols := String.intercalate ", " (keys.map quoteDoubling)
      let (groups, vals) := insertGroups keys rows
      let upsertClause :=
        if preferHas headers "resolution=merge-duplicates" then
          let conflictTarget :=
            match onConflictParam with
            | some oc => if oc ≠ "" then quoteDoubling oc else "\"id\""
            | none => "\"id\""
          let updateSet := String.intercalate ", "
            (keys.map fun k => quoteDoubling k ++ " = EXCLUDED." ++ quoteDoubling k)
          "ON CONFLICT (" ++ conflictTarget ++ ") DO UPDATE SET " ++ updateSet
        else if preferHas headers "resolution=ignore-duplicates" then
          "ON CONFLICT DO NOTHING"
        else ""
      let returning := if preferHas headers "return=minimal" then "" else "RETURNING *"
      let sql := "INSERT INTO public." ++ tbl ++ " (" ++ cols ++ ") VALUES "
        ++ String.intercalate ", " groups ++ " " ++ upsertClause ++ " " ++ returning
      return { text := sql, values := params ++ vals, countQuery := "" }
  else if method = "PATCH" then
    let keys := match body with
      | .obj r => r.map (·.1)
      | .arr rs => (List.range rs.length).map toString
    match keys with
    | [] => throw "No data to update"
    | _ =>
      let setPairs := keys.enum.map fun (i, k) =>
        quoteDoubling k ++ " = $" ++ toString (params.length + i + 1)
      let setVals := keys.map fun k =>
        match body with
        | .obj r => rowGet r k
        | .arr _ => SqlValue.null
      let params := params ++ setVals
      let (updateFilters, params) :=
        buildFiltersMut ["select", "order", "limit", "offset"] query params
      if updateFilters.length = 0 then
        throw "UPDATE requires a filter (e.g. ?id=eq.1)"
      else
        let updateWhere := "WHERE " ++ String.intercalate " AND " updateFilters
        let returning :=
          if preferHas headers "return=representation" then "RETURNING *" else ""
        let sql := "UPDATE public." ++ tbl ++ " SET "
          ++ String.intercalate ", " setPairs ++ " " ++ updateWhere ++ " " ++ returning
        return { text := sql, values := params, countQuery := "" }
  else if method = "DELETE" then
    let (deleteFilters, params) :=
      buildFiltersMut ["select", "order", "limit", "offset"] query params
    if deleteFilters.length = 0 then
      throw "DELETE requires a filter (e.g. ?id=eq.1)"
    else
      let deleteWhere := "WHERE " ++ String.intercalate " AND " deleteFilters
      let returning :=
        if preferHas headers "return=representation" then "RETURNING *" else ""
      let sql := "DELETE FROM public." ++ tbl ++ " " ++ deleteWhere ++ " " ++ returning
      return { text := sql, values := params, countQuery := "" }
  else
    return { text := "", values := params, countQuery := "" }

/-- Number of `$n` parameter placeholders in a SQL text: occurrences of `$`
immediately followed by a digit. -/
def countPlaceholders (sql : String) : Nat :=
  let rec go : List Char → Nat
    | [] => 0
    | ['$'] => 0
    | '$' :: c :: t => (if c.isDigit then 1 else 0) + go (c :: t)
    | _ :: t => go t
  go sql.data

end PostgrestService

namespace DataController

/-- The effective row limit of `DataController.queryRows`:
`Math.min(parseInt(req.query.limit as string) || 100, 1000)`. The `|| 100`
default applies when `parseInt` yields NaN (absent or unparseable parameter)
and also when it yields 0 (JavaScript falsiness). -/
def effectiveLimit (limitParam : Option String) : Int :=
  min
    (match limitParam with
     | none => 100
     | some s =>
       match JsPrim.parseIntJS s with
       | none => 100
       | some n => if n = 0 then 100 else n)
    1000

/-- `parseInt(req.query.offset as string) || 0`. -/
def effectiveOffset (offsetParam : Option String) : Int :=
  match offsetParam with
  | none => 0
  | some s => (JsPrim.parseIntJS s).getD 0

/-- Modelled from the spec: `quoteId` lives in the missing `utils/index.ts`;
per the spec, "Identifiers are quoted by doubling inner quotes". -/
def quoteId (name : String) : String :=
  "\"" ++ jsReplaceAll name "\"" "\"\"" ++ "\""

/-- The query issued by `DataController.queryRows`: text plus the two bound
parameters. -/
def queryRowsQuery (tableName : String) (limitParam offsetParam : Option String) :
    String × List Int :=
  ("SELECT * FROM public." ++ quoteId tableName ++ " LIMIT $1 OFFSET $2",
   [effectiveLimit limitParam, effectiveOffset offsetParam])

end DataController

namespace PoolService

/-- One registry entry, reduced to the fields the reaper consults. The
registry itself is the `Map` in insertion order, modelled as an association
list with pairwise-distinct keys (a `Map` invariant; `get` only inserts keys
that are absent). -/
abbrev Registry := List (String × Nat)

/-- `now - entry.lastAccessed > IDLE_THRESHOLD_MS` (JS subtraction can go
negative, hence the `Int` comparison). -/
def isIdle (idleMs : Nat) (now : Nat) (e : String × Nat) : Bool :=
  (now : Int) - (e.2 : Int) > (idleMs : Int)

/-- Stable insertion keeping ascending `lastAccessed` order: an element is
placed after all entries with an equal timestamp. -/
def insertByLA (x : String × Nat) : Registry → Registry
  | [] => [x]
  | y :: t => if x.2 < y.2 then x :: y :: t else y :: insertByLA x t

/-- `Array.from(pools.entries()).sort((a, b) => a.lastAccessed - b.lastAccessed)`
(a stable ascending sort). -/
def sortByLA (l : Registry) : Registry :=
  l.foldl (fun acc x => insertByLA x acc) []

/-- `PoolService.reapZombies`. Phase 1 closes entries idle beyond the
threshold; phase 2 (hard cap) closes the oldest survivors until the size is
back at the cap. Returns the surviving registry (in `Map` insertion order)
and the closed keys. -/
def reapZombies (maxPools idleMs now : Nat) (pools : Registry) :
    Registry × List String :=
  let entries := sortByLA pools
  let idleClosed := entries.filter (isIdle idleMs now)
  let remaining := pools.filter (fun e => !isIdle idleMs now e)
  if remaining.length > maxPools then
    let toRemove := remaining.length - maxPools
    let remainingEntries := entries.filter (fun e => !isIdle idleMs now e)
    let victims := remainingEntries.take toRemove
    let victimKeys := victims.map (·.1)
    (remaining.filter (fun e => !victimKeys.contains e.1),
     idleClosed.map (·.1) ++ victimKeys)
  else
    (remaining, idleClosed.map (·.1))

def base64Table : List Char :=
  "ABCDEFGHIJKLMNOPQRSTUVWXYZabcdefghijklmnopqrstuvwxyz0123456789+/".data

def b64char (n : Nat) : Char := base64Table.getD n 'A'

/-- RFC 4648 base64 of a byte list (as produced by
`Buffer.from(s).toString('base64')`). -/
def b64encode : List Nat → List Char
  | [] => []
  | [a] => [b64char (a / 4), b64char (a % 4 * 16), '=', '=']
  | [a, b] => [b64char (a / 4), b64char (a % 4 * 16 + b / 16), b64char (b % 16 * 4), '=']
  | a :: b :: c :: t =>
    b64char (a / 4) :: b64char (a % 4 * 16 + b / 16)
      :: b64char (b % 16 * 4 + c / 64) :: b64char (c % 64) :: b64encode t

def base64encode (s : String) : String :=
  String.mk (b64encode (stringBytes s))

/-- The registry key of `PoolService.get`: external pools use
`ext_{db}_{base64(connectionString).slice(0, 10)}`, internal ones
`{db}_direct` / `{db}_pool`. -/
def genKey (dbIdentifier : String) (useDirect : Bool)
    (connectionString : Option String) : String :=
  match connectionString with
  | some cs => "ext_" ++ dbIdentifier ++ "_" ++ (base64encode cs).take 10
  | none => dbIdentifier ++ (if useDirect then "_direct" else "_pool")

/-- `PoolService.get` restricted to its registry bookkeeping: cache hit
refreshes `lastAccessed`; a miss inserts the new entry and, when the size
now exceeds the cap, runs the reaper at once (the safety valve). Returns the
new registry and the keys closed by that reaper run. -/
def get (maxPools idleMs now : Nat) (key : String) (st : Registry) :
    Registry × List String :=
  if st.any (fun e => e.1 = key) then
    (st.map (fun e => if e.1 = key then (e.1, now) else e), [])
  else
    let st' := st ++ [(key, now)]
    if st'.length > maxPools then reapZombies maxPools idleMs now st'
    else (st', [])

/-- Acquire a sequence of `(time, key)` pools in order, accumulating closed
keys. -/
def acquireAll (maxPools idleMs : Nat) (acqs : List (Nat × String))
    (st : Registry) (closed : List String) : Registry × List String :=
  match acqs with
  | [] => (st, closed)
  | (now, key) :: rest =>
    let (st', c) := get maxPools idleMs now key st
    acquireAll maxPools idleMs rest st' (closed ++ c)

end PoolService

namespace Core

/-- The decrypted tenant record fields the request pipeline consults
(`system.projects` row after `pgp_sym_decrypt`). Verification of a tenant
user JWT is abstracted by the `tenantJwtOk` environment flag. -/
structure Project where
  slug : String
  db_name : String
  custom_domain : Option String := none
  blocklist : List String := []
  service_key : String
  anon_key : String
  external_db_url : Option String := none
  read_replica_url : Option String := none
  deriving Repr, DecidableEq

/-- `clientIp` computation shared by the middlewares:
`realIp || (forwarded ? forwarded.split(',')[0].trim() : socketIp) || ''`
followed by `.replace('::ffff:', '')` (a string-pattern replace: first
occurrence only). -/
def clientIpOf (realIp forwarded socketIp : Option String) : String :=
  let raw :=
    if jsTruthy realIp then realIp.getD ""
    else if jsTruthy forwarded then jsTrim ((jsSplitOn (forwarded.getD "") ",").headD "")
    else socketIp.getD ""
  jsReplaceFirst raw "::ffff:" ""

/-- Everything `resolveProject` reads: URL data, the presented bearer (and
whether it verifies under the process-wide admin secret), the control-plane
project table, the panic flags held in the rate-limit store, the client
address headers, and whether `PoolService.get` would succeed. -/
structure ResolveEnv where
  originalUrl : String
  path : String
  host : String
  bearer : Option String := none
  adminJwtOk : Bool := false
  projects : List Project := []
  panicSlugs : List String := []
  realIp : Option String := none
  forwardedFor : Option String := none
  socketIp : Option String := none
  poolOk : Bool := true
  deriving Repr, DecidableEq

inductive ResMethod where
  | byDomain
  | bySlug
  deriving Repr, DecidableEq

inductive ResolveResult where
  | proceed (project : Option Project) (isSystem : Bool)
  | reject (status : Nat)
  deriving Repr, DecidableEq

/-- `req.path.split('/')` then
`pathParts.length > 3 && pathParts[1] === 'api' && pathParts[2] === 'data'`. -/
def slugFromUrl (path : String) : Option String :=
  let parts := jsSplitOn path "/"
  if parts.length > 3 && parts.getD 1 "" = "api" && parts.getD 2 "" = "data" then
    parts.get? 3
  else none

/-- The two-step lookup: custom domain first (skipped for localhost hosts),
then the `/api/data/{slug}` segment. -/
def resolveLookup (env : ResolveEnv) : Option (Project × ResMethod) :=
  let domainHit :=
    if env.host ≠ "" && !jsIncludes env.host "localhost"
        && !jsIncludes env.host "127.0.0.1" then
      (env.projects.find? (fun p => p.custom_domain = some env.host)).map
        (fun p => (p, ResMethod.byDomain))
    else none
  match domainHit with
  | some hit => some hit
  | none =>
    match slugFromUrl env.path with
    | none => none
    | some s =>
      (env.projects.find? (fun p => p.slug = s)).map (fun p => (p, ResMethod.bySlug))

/-- `resolveProject` (middlewares/core): control-path bypass, admin-bearer
check, project lookup, panic shield, domain locking, IP blocklist, pool
acquisition. -/
def resolveProject (env : ResolveEnv) : ResolveResult :=
  if jsIncludes env.originalUrl "/api/control/" then .proceed none false
  else if env.path = "/" || env.path = "/health" then .proceed none false
  else
    let isSystem := jsTruthy env.bearer && env.adminJwtOk
    match resolveLookup env with
    | none =>
      if jsIncludes env.originalUrl "/api/data/" then .reject 404
      else .proceed none isSystem
    | some (p, m) =>
      if !isSystem && env.panicSlugs.contains p.slug then .reject 503
      else
        let isDev := jsIncludes env.host "localhost" || jsIncludes env.host "127.0.0.1"
        if jsTruthy p.custom_domain && m = ResMethod.bySlug && !isDev && !isSystem then
          .reject 403
        else
          let clientIp := clientIpOf env.realIp env.forwardedFor env.socketIp
          if p.blocklist.contains clientIp then .reject 403
          else if !env.poolOk then .reject 502
          else .proceed (some p) isSystem

/-- Everything `cascataAuth` reads. `tenantJwtOk` abstracts
`jwt.verify(bearerToken, project.jwt_secret)` succeeding; `adminJwtOk`
abstracts verification under the system secret on control paths. -/
structure AuthEnv where
  originalUrl : String
  path : String
  authHeader : Option String := none
  queryToken : Option String := none
  apikey : Option String := none
  project : Option Project := none
  isSystemRequest : Bool := false
  tenantJwtOk : Bool := false
  adminJwtOk : Bool := false
  deriving Repr, DecidableEq

inductive AuthResult where
  | proceed (role : String)
  | reject (status : Nat)
  deriving Repr, DecidableEq

/-- `authHeader?.startsWith('Bearer ') ? authHeader.split(' ')[1] : req.query.token` -/
def bearerOf (authHeader queryToken : Option String) : Option String :=
  match authHeader with
  | some h => if jsStartsWith h "Bearer " then (jsSplitOn h " ").get? 1 else queryToken
  | none => queryToken

/-- The trailing path cascade of `cascataAuth`: every auth-flow allow-listed
path fragment downgrades to role `anon` and proceeds; otherwise 401. The
`'/auth/v1/'` branch uses `r.userRole || 'anon'` and `userRole` is still
unset when this code runs. -/
def authPathFallback (path : String) (userRole : Option String) : AuthResult :=
  if jsIncludes path "/auth/providers/" || jsIncludes path "/auth/callback"
      || jsIncludes path "/auth/v1/authorize" || jsIncludes path "/auth/v1/callback"
      || jsIncludes path "/auth/v1/verify" || jsIncludes path "/auth/passwordless/"
      || jsIncludes path "/auth/token/refresh" || jsIncludes path "/auth/challenge"
      || jsIncludes path "/auth/verify-challenge" then .proceed "anon"
  else if jsIncludes path "/auth/users" || jsIncludes path "/auth/token" then
    .proceed "anon"
  else if jsIncludes path "/auth/v1/" then .proceed (userRole.getD "anon")
  else if jsIncludes path "/edge/" then .proceed "anon"
  else .reject 401

/-- `cascataAuth` (middlewares/core). The returned role is the value of
`r.userRole` on `next()`; control-plane `next()` keeps no role (empty
string). -/
def cascataAuth (env : AuthEnv) : AuthResult :=
  if jsIncludes env.originalUrl "/api/control/" then
    if jsEndsWith env.path "/auth/login" || jsEndsWith env.path "/auth/verify"
        || jsIncludes env.path "/system/ssl-check" then .proceed ""
    else
      match env.authHeader with
      | none =>
        if jsIncludes env.path "/export" && jsTruthy env.queryToken then .proceed ""
        else .reject 401
      | some _ => if env.adminJwtOk then .proceed "" else .reject 401
  else
    match env.project with
    | none =>
      if env.path = "/" || env.path = "/health" then .proceed ""
      else .reject 404
    | some p =>
      if env.isSystemRequest then .proceed "service_role"
      else
        let bearer := bearerOf env.authHeader env.queryToken
        if bearer = some p.service_key then .proceed "service_role"
        else if bearer = some p.anon_key then .proceed "anon"
        else if env.apikey = some p.service_key then .proceed "service_role"
        else if jsTruthy bearer && env.tenantJwtOk then .proceed "authenticated"
        else if env.apikey = some p.anon_key then .proceed "anon"
        else authPathFallback env.path none

end Core

namespace SecurityMw

/-- An entry of `metadata.allowed_origins`: a plain string or a
`{url, require_auth}` record. -/
inductive OriginEntry where
  | plain (s : String)
  | withUrl (url : String) (requireAuth : Bool)
  deriving Repr, DecidableEq

/-- `allowedOrigins.map(o => typeof o === 'string' ? o : o.url)` -/
def safeOrigins (allowed : List OriginEntry) : List String :=
  allowed.map fun e =>
    match e with
    | .plain s => s
    | .withUrl u _ => u

/-- The `Access-Control-Allow-Origin` value set by `dynamicCors` for a
request that carries a project: with an empty origin list any Origin whose
string CONTAINS `localhost` or `127.0.0.1` is echoed; with a non-empty list
exactly the listed origins are echoed. -/
def corsAllowOrigin (allowed : List OriginEntry) (origin : Option String) :
    Option String :=
  let safe := safeOrigins allowed
  if safe.length = 0 then
    match origin with
    | some o =>
      if jsIncludes o "localhost" || jsIncludes o "127.0.0.1" then some o else none
    | none => none
  else
    match origin with
    | some o => if safe.contains o then some o else none
    | none => none

/-- The authority (host) component of an Origin header value: the text after
the first `://`, up to the first `:` or `/`. -/
def originHost (o : String) : String :=
  let afterScheme :=
    match jsSplitOn o "://" with
    | [] => o
    | [x] => x
    | _ :: rest => String.intercalate "://" rest
  String.mk (afterScheme.data.takeWhile fun c => c ≠ ':' && c ≠ '/')

/-- The claim's notion of a loopback origin (spec: "echo only loopback
origins"): the Origin's host is exactly `localhost` or `127.0.0.1`. -/
def specLoopbackOrigin (o : String) : Bool :=
  originHost o = "localhost" || originHost o = "127.0.0.1"

/-- The error cases `express.json` hands to the `dynamicBodyParser`
callback. -/
inductive BodyParseError where
  | entityTooLarge
  | invalidJsonSyntax
  deriving Repr, DecidableEq

/-- `dynamicBodyParser`'s error callback: EVERY body-parser error is answered
with status 413 (`PAYLOAD_TOO_LARGE`); `none` means parsing succeeded and the
chain continues. -/
def dynamicBodyParserStatus (err : Option BodyParseError) : Option Nat :=
  match err with
  | none => none
  | some _ => some 413

end SecurityMw

namespace ServerMain

/-- The error shapes distinguished by the global error handler in
`server.ts`. -/
inductive GlobalErr where
  | multer (code : String)
  | userAlreadyRegistered
  | invalidLogin
  | userNotFound
  | pgError (code : String) (status : Option Nat)
  | jsonSyntaxWithBody
  | generic (status : Option Nat)
  deriving Repr, DecidableEq

def pgStatusMap (code : String) : Option Nat :=
  if code = "23505" then some 409
  else if code = "23503" then some 400
  else if code = "42P01" then some 404
  else if code = "42703" then some 400
  else if code = "23502" then some 400
  else if code = "22P02" then some 400
  else none

/-- The HTTP status chosen by the global error handler (branch order as in
the source; a `SyntaxError` with a `body` property maps to 400). -/
def globalErrorStatus : GlobalErr → Nat
  | .multer code => if code = "LIMIT_FILE_SIZE" then 413 else 400
  | .userAlreadyRegistered => 422
  | .invalidLogin => 400
  | .userNotFound => 404
  | .pgError code status =>
    match pgStatusMap code with
    | some s => s
    | none => status.getD 500
  | .jsonSyntaxWithBody => 400
  | .generic status => status.getD 500

end ServerMain

namespace QueueService

/-- Outcome of the outbound `axios.post` to the webhook target. -/
inductive PostOutcome where
  | success
  | httpError (status : Nat)
  | netError
  deriving Repr, DecidableEq

/-- What becomes of the job after this attempt: BullMQ retries a thrown
attempt while `attemptsMade + 1 < attempts`, otherwise marks it failed. -/
inductive JobDisposition where
  | completed
  | retryScheduled
  | failedFinal
  deriving Repr, DecidableEq

/-- `addWebhookJob` retry policies: `none` → 1 attempt, `linear` → 5,
anything else (`standard` default) → 10. -/
def retryAttempts (policy : Option String) : Nat :=
  match policy with
  | some "none" => 1
  | some "linear" => 5
  | _ => 10

/-- The webhook worker's try/catch around the POST
(`QueueService.init`): on success the job completes; on any failure
`isLastAttempt = attemptsMade >= (attempts || 1) - 1` decides whether the
fallback alert is dispatched, the `4xx other than 429` check has an empty
body, and the error is rethrown unconditionally, so BullMQ schedules a retry
whenever attempts remain regardless of the HTTP status. Returns
`(fallbackDispatched, disposition)`. -/
def webhookAttempt (post : PostOutcome) (attemptsMade attempts : Nat)
    (hasFallbackUrl : Bool) : Bool × JobDisposition :=
  match post with
  | .success => (false, .completed)
  | _ =>
    let att := if attempts = 0 then 1 else attempts
    let isLast := decide (attemptsMade ≥ att - 1)
    let fallbackDispatched := isLast && hasFallbackUrl
    (fallbackDispatched,
     if attemptsMade + 1 < att then .retryScheduled else .failedFinal)

end QueueService

namespace PushEngine

/-- A JavaScript value as the rule engine sees one: a missing field
(`undefined`), SQL `NULL`, or a scalar rendered as a string. -/
inductive JSVal where
  | absent
  | jnull
  | jstr (s : String)
  deriving Repr, DecidableEq

/-- JavaScript loose equality `==` restricted to this value universe:
`undefined == null` is true, strings compare by content, and `null`/
`undefined` never equal a string. -/
def looseEq : JSVal → JSVal → Bool
  | .absent, .absent => true
  | .absent, .jnull => true
  | .jnull, .absent => true
  | .jnull, .jnull => true
  | .jstr a, .jstr b => a = b
  | _, _ => false

/-- JS truthiness of such a value (`if (!userId) continue`). -/
def valTruthy : JSVal → Bool
  | .absent => false
  | .jnull => false
  | .jstr s => s ≠ ""

abbrev EventRow := List (String × JSVal)

def rowLookup (row : EventRow) (k : String) : JSVal :=
  (((row.find? (fun kv => kv.1 = k))).map (·.2)).getD .absent

/-- `record[key] !== null ? String(record[key]) : ''` -/
def displayVal : JSVal → String
  | .jnull => ""
  | .absent => "undefined"
  | .jstr s => s

/-- Template rendering: for every key of the record, globally replace
`{{key}}` by the stringified value (empty string for SQL null). -/
def renderTemplate (tpl : String) (row : EventRow) : String :=
  row.foldl (fun acc kv =>
    jsReplaceAll acc ("\x7b\x7b" ++ kv.1 ++ "\x7d\x7d") (displayVal kv.2)) tpl

structure RuleCond where
  field : String
  op : String
  value : JSVal
  deriving Repr, DecidableEq

structure NotificationRule where
  project_slug : String
  trigger_table : String
  trigger_event : String
  recipient_column : String
  title_template : String
  body_template : String
  conditions : List RuleCond
  active : Bool := true
  deriving Repr, DecidableEq

/-- The payload of the `notify_changes` trigger as consumed by
`processEventTrigger`. -/
structure TableEvent where
  table : String
  action : String
  record_id : String
  deriving Repr, DecidableEq

/-- The `system.notification_rules` query:
`project_slug = $1 AND trigger_table = $2 AND (trigger_event = $3 OR
trigger_event = 'ALL') AND active = true`. -/
def matchingRules (allRules : List NotificationRule) (slug : String)
    (evt : TableEvent) : List NotificationRule :=
  allRules.filter fun r =>
    r.project_slug = slug && r.trigger_table = evt.table
      && (r.trigger_event = evt.action || r.trigger_event = "ALL") && r.active

/-- The matching loop of the direct-send variant
(`src/backend/services/PushService.ts`): `eq` conditions fail on loose
inequality, `neq` on loose equality, any other operator is ignored. -/
def condsMatch (row : EventRow) (conds : List RuleCond) : Bool :=
  conds.all fun c =>
    if c.op = "eq" then looseEq (rowLookup row c.field) c.value
    else if c.op = "neq" then !looseEq (rowLookup row c.field) c.value
    else true

/-- A push dispatch produced by the rule engine. `dbName` is carried only by
queued jobs (`cascata_db_{slug with - replaced by _}`). -/
structure PushDispatch where
  userId : JSVal
  title : String
  body : String
  dbName : Option String := none
  deriving Repr, DecidableEq

/-- How a dispatch leaves the engine: placed on the `cascata-push` queue, or
delivered synchronously (device query + FCM HTTP calls inside the request
path). -/
inductive PushAction where
  | enqueue (job : PushDispatch)
  | syncSend (job : PushDispatch)
  deriving Repr, DecidableEq

def isEnqueue : PushAction → Bool
  | .enqueue _ => true
  | .syncSend _ => false

end PushEngine

namespace PushServiceDirect

open PushEngine

/-- The per-rule loop of `processEventTrigger` in
`src/backend/services/PushService.ts`: evaluate conditions, resolve the
recipient, render both templates, then call `sendToUser` — which in this
file performs the FCM delivery synchronously. -/
def processRules (row : EventRow) : List NotificationRule → List PushAction
  | [] => []
  | r :: rest =>
    if condsMatch row r.conditions then
      if valTruthy (rowLookup row r.recipient_column) then
        PushAction.syncSend
          { userId := rowLookup row r.recipient_column
            title := renderTemplate r.title_template row
            body := renderTemplate r.body_template row } :: processRules row rest
      else processRules row rest
    else processRules row rest

/-- `PushService.processEventTrigger` (direct-send variant). `fetchRow` is
the row the `SELECT * FROM public."{table}" WHERE id = $1` would return.
The boolean result records whether that fetch was executed; DELETE events
return before it. -/
def processEventTrigger (allRules : List NotificationRule) (slug : String)
    (evt : TableEvent) (fetchRow : Option EventRow) (hasFcm : Bool) :
    Bool × List PushAction :=
  if !hasFcm then (false, [])
  else
    let rules := matchingRules allRules slug evt
    if rules.isEmpty then (false, [])
    else if evt.action ≠ "DELETE" then
      match fetchRow with
      | none => (true, [])
      | some row => (true, processRules row rules)
    else (false, [])

end PushServiceDirect

namespace PushServiceQueued

open PushEngine

/-- `sendToUser` of `src/unnamed/part_005` computes the worker's database
name and enqueues. -/
def dbNameOf (slug : String) : String :=
  "cascata_db_" ++ jsReplaceAll slug "-" "_"

/-- The per-rule loop of `processEventTrigger` in `src/unnamed/part_005`:
no condition check at all; resolve the recipient, render, then call
`sendToUser` — which in this file only enqueues a job. -/
def processRules (slug : String) (row : EventRow) :
    List NotificationRule → List PushAction
  | [] => []
  | r :: rest =>
    if valTruthy (rowLookup row r.recipient_column) then
      PushAction.enqueue
        { userId := rowLookup row r.recipient_column
          title := renderTemplate r.title_template row
          body := renderTemplate r.body_template row
          dbName := some (dbNameOf slug) } :: processRules slug row rest
    else processRules slug row rest

/-- `PushService.processEventTrigger` (queue-backed variant): the fresh-row
fetch runs for EVERY action, DELETE included (for DELETE the row is already
gone, so `fetchRow` is `none` and nothing is enqueued, but the query was
still issued). -/
def processEventTrigger (allRules : List NotificationRule) (slug : String)
    (evt : TableEvent) (fetchRow : Option EventRow) (hasFcm : Bool) :
    Bool × List PushAction :=
  if !hasFcm then (false, [])
  else
    let rules := matchingRules allRules slug evt
    if rules.isEmpty then (false, [])
    else
      match fetchRow with
      | none => (true, [])
      | some row => (true, processRules slug row rules)

end PushServiceQueued

/-! ### Concrete instances used by the theorems below -/

namespace Fixtures

open Core PushEngine

/-- A tenant with one blocklisted address. -/
def acmeProject : Core.Project :=
  { slug := "acme"
    db_name := "cascata_db_acme"
    custom_domain := none
    blocklist := ["9.9.9.9"]
    service_key := "sk-0001"
    anon_key := "ak-0001" }

/-- An admin-bearer request for `acme` (which is under panic) arriving from
the blocklisted address. -/
def panicAdminEnv : Core.ResolveEnv :=
  { originalUrl := "/api/data/acme/tables"
    path := "/api/data/acme/tables"
    host := "localhost:3000"
    bearer := some "admin-jwt"
    adminJwtOk := true
    projects := [acmeProject]
    panicSlugs := ["acme"]
    realIp := some "9.9.9.9"
    poolOk := true }

/-- The same request with the tenant anon key instead of the admin bearer. -/
def panicAnonEnv : Core.ResolveEnv :=
  { panicAdminEnv with bearer := some "ak-0001", adminJwtOk := false, realIp := some "8.8.8.8" }

/-- A credential-less request to an edge-function path. -/
def edgeAuthEnv : Core.AuthEnv :=
  { originalUrl := "/api/data/acme/edge/hello"
    path := "/api/data/acme/edge/hello"
    project := some acmeProject }

/-- A notification rule with no conditions. -/
def orderRule : PushEngine.NotificationRule :=
  { project_slug := "acme"
    trigger_table := "orders"
    trigger_event := "INSERT"
    recipient_column := "user_id"
    title_template := "Order \x7b\x7bid\x7d\x7d"
    body_template := "Status \x7b\x7bstatus\x7d\x7d"
    conditions := [] }

/-- The same rule gated on `status eq paid`. -/
def paidOnlyRule : PushEngine.NotificationRule :=
  { orderRule with conditions := [{ field := "status", op := "eq", value := .jstr "paid" }] }

def orderInsertEvent : PushEngine.TableEvent :=
  { table := "orders", action := "INSERT", record_id := "42" }

def paidRow : PushEngine.EventRow :=
  [("id", .jstr "42"), ("user_id", .jstr "u1"), ("status", .jstr "paid")]

def pendingRow : PushEngine.EventRow :=
  [("id", .jstr "43"), ("user_id", .jstr "u1"), ("status", .jstr "pending")]

/-- Five distinct tenants acquired in sequence (internal pooled keys). -/
def fiveAcquires : List (Nat × String) :=
  [(1, PoolService.genKey "t1" false none), (2, PoolService.genKey "t2" false none),
   (3, PoolService.genKey "t3" false none), (4, PoolService.genKey "t4" false none),
   (5, PoolService.genKey "t5" false none)]

end Fixtures

/-! ### Helper lemmas -/

namespace PoolService

lemma insertByLA_perm (x : String × Nat) (l : Registry) :
    List.Perm (insertByLA x l) (x :: l) := by
  induction l with
  | nil => rfl
  | cons y t ih =>
    simp only [insertByLA]
    by_cases h : x.2 < y.2
    · simp [h]
    · simp only [h, if_false]
      exact (ih.cons y).trans (List.Perm.swap x y t)

lemma foldl_insertByLA_perm (l acc : Registry) :
    List.Perm (l.foldl (fun a x => insertByLA x a) acc) (acc ++ l) := by
  induction l generalizing acc with
  | nil => simp
  | cons x t ih =>
    simp only [List.foldl_cons]
    refine (ih (insertByLA x acc)).trans ?_
    refine (List.Perm.append_right t (insertByLA_perm x acc)).trans ?_
    exact List.perm_middle.symm

lemma sortByLA_perm (l : Registry) : List.Perm (sortByLA l) l := by
  simpa using foldl_insertByLA_perm l []

/-- After a reaper tick the registry never exceeds the cap. -/
lemma reap_length_le (maxPools idleMs now : Nat) (pools : Registry) :
    ((reapZombies maxPools idleMs now pools).1).length ≤ maxPools := by
  simp only [reapZombies]
  by_cases h : (pools.filter (fun e => !isIdle idleMs now e)).length > maxPools
  · simp only [h, if_true]
    set remaining := pools.filter (fun e => !isIdle idleMs now e) with hrem
    set remE := (sortByLA pools).filter (fun e => !isIdle idleMs now e) with hremE
    set toRemove := remaining.length - maxPools with htr
    set victimKeys := (remE.take toRemove).map (·.1) with hvk
    have hperm : List.Perm remE remaining :=
      (sortByLA_perm pools).filter _
    have hlenE : remE.length = remaining.length := hperm.length_eq
    have hfil : (remaining.filter (fun e => !victimKeys.contains e.1)).length
        = (remE.filter (fun e => !victimKeys.contains e.1)).length :=
      (hperm.filter _).length_eq.symm
    rw [hfil]
    have hsplit : remE = remE.take toRemove ++ remE.drop toRemove :=
      (List.take_append_drop _ _).symm
    have hvict : (remE.take toRemove).filter (fun e => !victimKeys.contains e.1) = [] := by
      apply List.filter_eq_nil_iff.mpr
      intro e he
      have h1 : e.1 ∈ victimKeys := by
        rw [hvk]; exact List.mem_map_of_mem _ he
      simp [h1]
    calc (remE.filter (fun e => !victimKeys.contains e.1)).length
        = ((remE.take toRemove ++ remE.drop toRemove).filter
            (fun e => !victimKeys.contains e.1)).length := by rw [← hsplit]
      _ = ((remE.take toRemove).filter (fun e => !victimKeys.contains e.1)).length
          + ((remE.drop toRemove).filter (fun e => !victimKeys.contains e.1)).length := by
            rw [List.filter_append, List.length_append]
      _ ≤ 0 + (remE.drop toRemove).length := by
            rw [hvict]
            exact Nat.add_le_add (Nat.le_refl 0) (List.length_filter_le _ _)
      _ ≤ remE.length - toRemove := by
            rw [List.length_drop]; omega
      _ ≤ maxPools := by omega
  · simp only [h, if_false]
    omega

end PoolService

namespace Core

/-- Every allow-listed path fragment of the trailing cascade yields role
`anon`; in particular each of the four fragments of interest does. -/
lemma authPathFallback_anon (path : String)
    (h : jsIncludes path "/edge/" = true ∨ jsIncludes path "/auth/users" = true
      ∨ jsIncludes path "/auth/token" = true ∨ jsIncludes path "/auth/v1/" = true) :
    authPathFallback path none = .proceed "anon" := by
  unfold authPathFallback
  rcases h with h | h | h | h <;>
    · repeat' split
      all_goals simp_all

end Core

namespace PushEngine

lemma processRulesQueued_eq (slug : String) (row : EventRow)
    (rules : List NotificationRule) :
    PushServiceQueued.processRules slug row rules
      = (rules.filter (fun r => valTruthy (rowLookup row r.recipient_column))).map
          (fun r => PushAction.enqueue
            { userId := rowLookup row r.recipient_column
              title := renderTemplate r.title_template row
              body := renderTemplate r.body_template row
              dbName := some (PushServiceQueued.dbNameOf slug) }) := by
  induction rules with
  | nil => rfl
  | cons r rest ih =>
    simp only [PushServiceQueued.processRules]
    by_cases h : valTruthy (rowLookup row r.recipient_column)
    · simp [h, ih]
    · simp [h, ih]

lemma processRulesDirect_eq (row : EventRow) (rules : List NotificationRule) :
    PushServiceDirect.processRules row rules
      = (rules.filter (fun r => condsMatch row r.conditions
            && valTruthy (rowLookup row r.recipient_column))).map
          (fun r => PushAction.syncSend
            { userId := rowLookup row r.recipient_column
              title := renderTemplate r.title_template row
              body := renderTemplate r.body_template row }) := by
  induction rules with
  | nil => rfl
  | cons r rest ih =>
    simp only [PushServiceDirect.processRules]
    by_cases h1 : condsMatch row r.conditions
    · by_cases h2 : valTruthy (rowLookup row r.recipient_column)
      · simp [h1, h2, ih]
      · simp [h1, h2, ih]
    · simp [h1, ih]

end PushEngine

/-! ### Claim theorems -/

/-- C1: the translator is meant to keep every filter value in the `values`
array with one placeholder per value, but the GET filter loop flattens an
`in` filter's element list onto `values` while the clause holds a single
`= ANY($n)` placeholder: for `GET /t?id=in.(1,2)` the produced SQL holds 1
placeholder against 2 bound values, so the claimed placeholder-count /
values-length equality fails (and the statement cannot even be executed —
the driver supplies more parameters than the statement declares). -/
theorem C1_in_filter_flattening :
    (PostgrestService.buildQuery "t" "GET" [("id", "in.(1,2)")] (.obj []) {}).toOption.map
        (fun q => (PostgrestService.countPlaceholders q.text, q.values.length, q.text))
      = some (1, 2, "SELECT * FROM public.\"t\" WHERE \"id\" = ANY($1)   ") := by
  decide

/-- C3: a 4xx response other than 429 does NOT short-circuit the webhook job
to the final-attempt branch: the status check in the catch block has an empty
body, so under the `standard` policy (10 attempts) an HTTP 400 on the first
attempt dispatches no fallback and is rethrown, which makes BullMQ schedule
a retry for the remaining attempts. -/
theorem C3_4xx_still_retried :
    QueueService.webhookAttempt (.httpError 400) 0
        (QueueService.retryAttempts (some "standard")) true
      = (false, .retryScheduled)
    ∧ QueueService.retryAttempts (some "standard") = 10 :=
  ⟨rfl, rfl⟩

/-- C8: `dynamicBodyParser` answers EVERY body-parser error with HTTP 413
(`PAYLOAD_TOO_LARGE`), an invalid-JSON syntax error included, so such a
request is not answered with 400 even though the global handler's unreached
`SyntaxError → 400` branch would map it to `Validation`. -/
theorem C8_invalid_json_gets_413 :
    SecurityMw.dynamicBodyParserStatus (some .invalidJsonSyntax) = some 413
    ∧ ServerMain.globalErrorStatus .jsonSyntaxWithBody = 400 :=
  ⟨rfl, rfl⟩

/-- C5: after any reaper tick the registry holds at most `MAX_ACTIVE_POOLS`
entries (oldest-by-last-access evicted first), and acquiring pools for five
distinct tenants with the cap at 4 leaves exactly 4 entries, the first
(least recently accessed) tenant's pool having been closed. -/
theorem C5_pool_registry_hard_cap :
    (∀ maxPools idleMs now pools,
      ((PoolService.reapZombies maxPools idleMs now pools).1).length ≤ maxPools)
    ∧ PoolService.acquireAll 4 300000 Fixtures.fiveAcquires [] []
        = ([("t2_pool", 2), ("t3_pool", 3), ("t4_pool", 4), ("t5_pool", 5)],
           ["t1_pool"]) :=
  ⟨PoolService.reap_length_le, by decide⟩

/-- C6 counterexample: `Range: 100-50` is not rejected — the translator
returns a well-formed result whose text carries `LIMIT -49 OFFSET 100`
(rejection is left to the database at execution time). -/
theorem C6_range_backwards_not_rejected :
    (PostgrestService.buildQuery "items" "GET" [] (.obj [])
        { range := some "100-50" }).toOption.map (fun q => q.text)
      = some "SELECT * FROM public.\"items\"   LIMIT -49 OFFSET 100" := by
  decide

/-- C10 counterexample: for `limit=0` the claimed formula
`min(parsed limit, 1000)` yields 0, but the code's `parseInt(...) || 100`
treats 0 as falsy and the effective limit is 100. -/
theorem C10_limit_zero_defaults :
    JsPrim.parseIntJS "0" = some 0
    ∧ DataController.effectiveLimit (some "0") = 100
    ∧ min (0 : Int) 1000 = 0 := by
  refine ⟨by decide, by decide, by decide⟩

/-- C7 counterexample: with an empty allowed-origins list the middleware
echoes `https://localhost.evil.com` — an Origin whose host is
`localhost.evil.com`, not a loopback host — because the check is a substring
test, not a host comparison. -/
theorem C7_substring_not_loopback :
    SecurityMw.corsAllowOrigin [] (some "https://localhost.evil.com")
      = some "https://localhost.evil.com"
    ∧ SecurityMw.specLoopbackOrigin "https://localhost.evil.com" = false := by
  decide

/-- C2 counterexample: `acme` is under panic and the request carries a
verified admin bearer, yet it is rejected (403) because the admin's address
is on the project blocklist — so the accepted set under panic is NOT exactly
the admin set. -/
theorem C2_admin_rejected_under_panic :
    Core.resolveProject Fixtures.panicAdminEnv = .reject 403
    ∧ (jsTruthy Fixtures.panicAdminEnv.bearer && Fixtures.panicAdminEnv.adminJwtOk) = true
    ∧ Fixtures.panicAdminEnv.panicSlugs.contains "acme" = true
    ∧ Core.resolveLookup Fixtures.panicAdminEnv
        = some (Fixtures.acmeProject, .bySlug) := by
  decide

/-- Under panic, a non-admin request with a resolved project is answered
503 before any later check runs. -/
lemma Core.resolve_panic_503 (env : Core.ResolveEnv) (p : Core.Project)
    (m : Core.ResMethod)
    (hlook : Core.resolveLookup env = some (p, m))
    (hpanic : env.panicSlugs.contains p.slug = true)
    (hctl : jsIncludes env.originalUrl "/api/control/" = false)
    (hp1 : env.path ≠ "/") (hp2 : env.path ≠ "/health")
    (hadm : (jsTruthy env.bearer && env.adminJwtOk) = false) :
    Core.resolveProject env = .reject 503 := by
  unfold Core.resolveProject
  simp only [hctl, Bool.false_eq_true, if_false, hp1, hp2, hlook, hadm, hpanic]
  simp [hp1, hp2]

/-- C2 (amended): for a request that resolves a tenant under panic, every
non-admin request is rejected 503, and every ACCEPTED request is an admin
request (the converse fails: later checks may still reject an admin). -/
theorem C2_panic_shield_amended :
    ∀ (env : Core.ResolveEnv) (p : Core.Project) (m : Core.ResMethod),
      Core.resolveLookup env = some (p, m) →
      env.panicSlugs.contains p.slug = true →
      jsIncludes env.originalUrl "/api/control/" = false →
      env.path ≠ "/" → env.path ≠ "/health" →
      ((jsTruthy env.bearer && env.adminJwtOk) = false →
         Core.resolveProject env = .reject 503)
      ∧ (∀ pr sys, Core.resolveProject env = .proceed pr sys →
           (jsTruthy env.bearer && env.adminJwtOk) = true) := by
  intro env p m hlook hpanic hctl hp1 hp2
  constructor
  · exact Core.resolve_panic_503 env p m hlook hpanic hctl hp1 hp2
  · intro pr sys hres
    by_contra hadm
    have hadm' : (jsTruthy env.bearer && env.adminJwtOk) = false := by
      revert hadm; cases (jsTruthy env.bearer && env.adminJwtOk) <;> simp
    rw [Core.resolve_panic_503 env p m hlook hpanic hctl hp1 hp2 hadm'] at hres
    exact absurd hres (by simp)

/-- C2 witness: the same panic-mode request with the tenant anon key instead
of the admin bearer receives 503. -/
theorem C2_panic_shield_amended_witness :
    Core.resolveProject Fixtures.panicAnonEnv = .reject 503 :=
  (C2_panic_shield_amended Fixtures.panicAnonEnv Fixtures.acmeProject .bySlug
    (by decide) (by decide) (by decide) (by decide) (by decide)).1 (by decide)

/-- C4 counterexample: the direct-send variant of the rule engine
(`src/backend/services/PushService.ts`) delivers the push synchronously —
the action produced for a matched INSERT rule is a synchronous send, not an
enqueue, refuting "the engine never sends the push synchronously — it only
enqueues". -/
theorem C4_direct_variant_sends_synchronously :
    PushServiceDirect.processEventTrigger [Fixtures.orderRule] "acme"
        Fixtures.orderInsertEvent (some Fixtures.paidRow) true
      = (true, [.syncSend { userId := .jstr "u1", title := "Order 42",
                            body := "Status paid" }])
    ∧ ((PushServiceDirect.processEventTrigger [Fixtures.orderRule] "acme"
          Fixtures.orderInsertEvent (some Fixtures.paidRow) true).2).all
        PushEngine.isEnqueue = false := by
  decide

/-- C4 (amended): the queue-backed variant only enqueues but checks no
conditions and fetches the fresh row even for DELETE events; the direct-send
variant gates on eq/neq conditions, skips everything (fetch included) for
DELETE, renders the templates — but sends synchronously. -/
theorem C4_rule_engine_amended :
    (∀ allRules slug evt fetch fcm,
      ((PushServiceQueued.processEventTrigger allRules slug evt fetch fcm).2).all
        PushEngine.isEnqueue = true)
    ∧ (∀ allRules slug evt row,
        (PushServiceQueued.processEventTrigger allRules slug evt (some row) true).2
          = ((PushEngine.matchingRules allRules slug evt).filter
              (fun r => PushEngine.valTruthy
                (PushEngine.rowLookup row r.recipient_column))).map
              (fun r => PushEngine.PushAction.enqueue
                { userId := PushEngine.rowLookup row r.recipient_column
                  title := PushEngine.renderTemplate r.title_template row
                  body := PushEngine.renderTemplate r.body_template row
                  dbName := some (PushServiceQueued.dbNameOf slug) }))
    ∧ (∀ allRules slug tbl id fetch fcm,
        PushServiceDirect.processEventTrigger allRules slug
          { table := tbl, action := "DELETE", record_id := id } fetch fcm
          = (false, []))
    ∧ (∀ allRules slug evt row, evt.action ≠ "DELETE" →
        (PushServiceDirect.processEventTrigger allRules slug evt (some row) true).2
          = ((PushEngine.matchingRules allRules slug evt).filter
              (fun r => PushEngine.condsMatch row r.conditions
                && PushEngine.valTruthy
                  (PushEngine.rowLookup row r.recipient_column))).map
              (fun r => PushEngine.PushAction.syncSend
                { userId := PushEngine.rowLookup row r.recipient_column
                  title := PushEngine.renderTemplate r.title_template row
                  body := PushEngine.renderTemplate r.body_template row }))
    ∧ (∀ allRules slug tbl id fetch,
        (PushServiceQueued.processEventTrigger allRules slug
          { table := tbl, action := "DELETE", record_id := id } fetch true).1
          = !(PushEngine.matchingRules allRules slug
              { table := tbl, action := "DELETE", record_id := id }).isEmpty) := by
  refine ⟨?_, ?_, ?_, ?_, ?_⟩
  · intro allRules slug evt fetch fcm
    unfold PushServiceQueued.processEventTrigger
    cases fcm with
    | false => simp
    | true =>
      by_cases hr : (PushEngine.matchingRules allRules slug evt).isEmpty
      · simp [hr]
      · cases fetch with
        | none => simp [hr]
        | some row =>
          simp only [hr, if_false, PushEngine.processRulesQueued_eq]
          rw [List.all_eq_true]
          intro a ha
          obtain ⟨r, _, hr2⟩ := List.mem_map.mp ha
          rw [← hr2]
          rfl
  · intro allRules slug evt row
    unfold PushServiceQueued.processEventTrigger
    by_cases hr : (PushEngine.matchingRules allRules slug evt).isEmpty
    · simp [hr, List.isEmpty_iff.mp hr]
    · simp [hr, PushEngine.processRulesQueued_eq]
  · intro allRules slug tbl id fetch fcm
    unfold PushServiceDirect.processEventTrigger
    cases fcm with
    | false => simp
    | true =>
      by_cases hr : (PushEngine.matchingRules allRules slug
          { table := tbl, action := "DELETE", record_id := id }).isEmpty
      · simp [hr]
      · simp [hr]
  · intro allRules slug evt row hne
    unfold PushServiceDirect.processEventTrigger
    by_cases hr : (PushEngine.matchingRules allRules slug evt).isEmpty
    · simp [hr, List.isEmpty_iff.mp hr]
    · simp [hr, hne, PushEngine.processRulesDirect_eq]
  · intro allRules slug tbl id fetch
    unfold PushServiceQueued.processEventTrigger
    by_cases hr : (PushEngine.matchingRules allRules slug
        { table := tbl, action := "DELETE", record_id := id }).isEmpty
    · simp [hr]
    · cases fetch <;> simp [hr]

/-- C4 witness: a rule gated on `status eq paid` produces nothing for a row
whose status is `pending` (the condition gate of the direct-send variant). -/
theorem C4_rule_engine_amended_witness :
    (PushServiceDirect.processEventTrigger [Fixtures.paidOnlyRule] "acme"
      Fixtures.orderInsertEvent (some Fixtures.pendingRow) true).2 = [] := by
  have h := C4_rule_engine_amended.2.2.2.1 [Fixtures.paidOnlyRule] "acme"
    Fixtures.orderInsertEvent Fixtures.pendingRow (by decide)
  rw [h]
  decide

/-- C6 (amended): a parsed `start-end` Range header maps to
`OFFSET start LIMIT end-start+1` unless a truthy `limit`/`offset` parameter
overrides it; `Range: 0-0` yields `LIMIT 1 OFFSET 0` (at most one row); a
backwards range is translated, not rejected (see the counterexample). -/
theorem C6_range_mapping_amended :
    (∀ (h : PostgrestService.Headers) (s e : Nat) (lim off : Option String),
       PostgrestService.findRange (h.range.getD "").data = some (s, some e) →
       jsTruthy lim = false → jsTruthy off = false →
       PostgrestService.getPagination h lim off
         = ("LIMIT " ++ toString ((e : Int) - (s : Int) + 1),
            "OFFSET " ++ toString s))
    ∧ (∀ (h : PostgrestService.Headers) (lim off : Option String),
        jsTruthy lim = true →
        (PostgrestService.getPagination h lim off).1
          = "LIMIT " ++ parseIntDisplay (lim.getD ""))
    ∧ PostgrestService.getPagination { range := some "0-0" } none none
        = ("LIMIT 1", "OFFSET 0")
    ∧ (PostgrestService.buildQuery "items" "GET" [] (.obj [])
          { range := some "0-0" }).toOption.map (fun q => q.text)
        = some "SELECT * FROM public.\"items\"   LIMIT 1 OFFSET 0" := by
  refine ⟨?_, ?_, by decide, by decide⟩
  · intro h s e lim off h1 h2 h3
    cases hr : h.range with
    | none =>
      rw [hr] at h1
      simp [PostgrestService.findRange] at h1
    | some r =>
      rw [hr] at h1
      simp only [Option.getD_some] at h1
      simp [PostgrestService.getPagination, hr, h1, h2, h3]
  · intro h lim off hl
    obtain ⟨r, pref, acc⟩ := h
    cases r with
    | none => simp [PostgrestService.getPagination, hl]
    | some s' =>
      cases hfr : PostgrestService.findRange s'.data with
      | none => simp [PostgrestService.getPagination, hl, hfr]
      | some pr =>
        obtain ⟨st, en⟩ := pr
        cases en <;> simp [PostgrestService.getPagination, hl, hfr]

/-- C6 witness: `Range: 5-9` maps to `LIMIT 5 OFFSET 5`. -/
theorem C6_range_mapping_amended_witness :
    PostgrestService.getPagination { range := some "5-9" } none none
      = ("LIMIT 5", "OFFSET 5") := by
  have h := C6_range_mapping_amended.1 { range := some "5-9" } 5 9 none none
    (by decide) rfl rfl
  rw [h]
  decide

/-- C7 (amended): with an empty allowed-origins list, `dynamicCors` echoes
the Origin exactly when the origin STRING contains `localhost` or
`127.0.0.1` as a substring (a strict superset of the loopback origins); with
a non-empty list it echoes exactly the listed origins (string entries or the
`url` field of record entries). -/
theorem C7_cors_amended :
    (∀ o : String,
      SecurityMw.corsAllowOrigin [] (some o) = some o
        ↔ (jsIncludes o "localhost" || jsIncludes o "127.0.0.1") = true)
    ∧ (∀ (allowed : List SecurityMw.OriginEntry) (o : String), allowed ≠ [] →
        (SecurityMw.corsAllowOrigin allowed (some o) = some o
          ↔ o ∈ SecurityMw.safeOrigins allowed)) := by
  constructor
  · intro o
    unfold SecurityMw.corsAllowOrigin
    simp only [SecurityMw.safeOrigins, List.map_nil, List.length_nil, if_true]
    by_cases h : (jsIncludes o "localhost" || jsIncludes o "127.0.0.1") = true
    · simp [h]
    · have h' : (jsIncludes o "localhost" || jsIncludes o "127.0.0.1") = false := by
        revert h; cases (jsIncludes o "localhost" || jsIncludes o "127.0.0.1") <;> simp
      simp [h']
  · intro allowed o hne
    unfold SecurityMw.corsAllowOrigin
    have hlen : (SecurityMw.safeOrigins allowed).length ≠ 0 := by
      simp [SecurityMw.safeOrigins]
      exact hne
    simp only [hlen, if_false]
    by_cases h : o ∈ SecurityMw.safeOrigins allowed
    · simp [h]
    · simp [h]

/-- C7 witness: a listed origin is echoed in strict mode. -/
theorem C7_cors_amended_witness :
    SecurityMw.corsAllowOrigin [SecurityMw.OriginEntry.plain "https://app.example.com"]
      (some "https://app.example.com") = some "https://app.example.com" :=
  (C7_cors_amended.2 [SecurityMw.OriginEntry.plain "https://app.example.com"]
    "https://app.example.com" (by decide)).mpr (by decide)

/-- C9: a data-plane request with a resolved project and no valid credential
whose path contains `/edge/`, `/auth/users`, `/auth/token` or `/auth/v1/` is
given role `anon` and proceeds instead of being answered 401. -/
theorem C9_auth_allowlist_paths_get_anon :
    ∀ (env : Core.AuthEnv) (p : Core.Project),
      jsIncludes env.originalUrl "/api/control/" = false →
      env.project = some p →
      env.isSystemRequest = false →
      Core.bearerOf env.authHeader env.queryToken ≠ some p.service_key →
      Core.bearerOf env.authHeader env.queryToken ≠ some p.anon_key →
      env.apikey ≠ some p.service_key →
      (jsTruthy (Core.bearerOf env.authHeader env.queryToken)
        && env.tenantJwtOk) = false →
      env.apikey ≠ some p.anon_key →
      (jsIncludes env.path "/edge/" = true ∨ jsIncludes env.path "/auth/users" = true
        ∨ jsIncludes env.path "/auth/token" = true
        ∨ jsIncludes env.path "/auth/v1/" = true) →
      Core.cascataAuth env = .proceed "anon" := by
  intro env p hctl hproj hsys h1 h2 h3 h4 h5 hpath
  unfold Core.cascataAuth
  rw [hproj]
  simp only [hctl, Bool.false_eq_true, if_false, hsys, h1, h2, h3, h4, h5]
  exact Core.authPathFallback_anon env.path hpath

/-- C9 witness: a credential-less request to an `/edge/` path proceeds as
`anon`. -/
theorem C9_auth_allowlist_paths_get_anon_witness :
    Core.cascataAuth Fixtures.edgeAuthEnv = .proceed "anon" :=
  C9_auth_allowlist_paths_get_anon Fixtures.edgeAuthEnv Fixtures.acmeProject
    (by decide) (by decide) (by decide) (by decide) (by decide) (by decide)
    (by decide) (by decide) (Or.inl (by decide))

/-- C10 (amended): the effective `queryRows` limit never exceeds 1000; it is
`min(parsed limit, 1000)` for every limit that parses to a non-zero number,
and 100 when the parameter is absent, unparseable, or parses to 0 (the
JavaScript `|| 100` default also swallows 0). -/
theorem C10_effective_limit_amended :
    (∀ lim, DataController.effectiveLimit lim ≤ 1000)
    ∧ (∀ s n, JsPrim.parseIntJS s = some n → n ≠ 0 →
        DataController.effectiveLimit (some s) = min n 1000)
    ∧ (∀ s, JsPrim.parseIntJS s = none → DataController.effectiveLimit (some s) = 100)
    ∧ DataController.effectiveLimit none = 100 := by
  refine ⟨?_, ?_, ?_, by decide⟩
  · intro lim
    unfold DataController.effectiveLimit
    exact min_le_right _ _
  · intro s n h hn
    unfold DataController.effectiveLimit
    simp [h, hn]
  · intro s h
    unfold DataController.effectiveLimit
    simp [h]

/-- C10 witness: `limit=2000` is capped at 1000. -/
theorem C10_effective_limit_amended_witness :
    DataController.effectiveLimit (some "2000") = 1000 := by
  have h := C10_effective_limit_amended.2.1 "2000" 2000 (by decide) (by decide)
  rw [h]
  decide
